import Mathlib

/-!
# ambient2mqtt: telemetry-to-discovery mapping

A shallow embedding of `ambient2mqtt.go`.

* Go strings are Lean `String`s (sequences of Unicode scalar values); the one
  byte-level operation of the source, `s[0]`, is modelled through the first
  byte of the UTF-8 encoding of the first character.
* The package-level variables `config` and `components` are explicit
  arguments.  The MQTT client is replaced by the list of `client.Publish`
  calls the handler makes, in the order it makes them; `token.Wait()` returns
  nothing the handler looks at.  Logging is left out.
* A Go map is an association list.  `range` over a map visits the entries in
  an unspecified order, so each of the two `range query` loops of
  `processData` receives the order in which it visits the entries.
* A run-time panic (nil pointer dereference, index out of range) ends the
  handler: the publishes made so far stay, no response is written.
-/

namespace Ambient2Mqtt

/-! ## Data model -/

/-- Go struct `hassMqttConfigDevice`. -/
structure hassMqttConfigDevice where
  Identifiers : List String
  Manufacturer : String
  Model : String
  Name : String
  SWVersion : String
  deriving DecidableEq, Repr

/-- Go struct `hassMqttConfig`. -/
structure hassMqttConfig where
  AvailabilityTopic : String
  ConfigTopic : String
  Device : hassMqttConfigDevice
  Name : String
  Qos : Int
  StateTopic : String
  UniqueId : String
  Icon : String
  UnitOfMeasurement : String
  Platform : String
  deriving DecidableEq, Repr

/-- Go struct `tomlConfigHass`. -/
structure tomlConfigHass where
  Discovery : Bool
  DiscoveryPrefix : String
  ObjectId : String
  DeviceModel : String
  DeviceName : String
  Manufacturer : String
  deriving DecidableEq, Repr

/-- Go struct `tomlConfigHTTP`. -/
structure tomlConfigHTTP where
  Port : Int
  deriving DecidableEq, Repr

/-- Go struct `tomlConfigMQTT`. -/
structure tomlConfigMQTT where
  BrokerHost : String
  BrokerPort : Int
  BrokerUsername : String
  BrokerPassword : String
  ClientId : String
  TopicPrefix : String
  Topic : String
  deriving DecidableEq, Repr

/-- Go struct `tomlConfig`. -/
structure tomlConfig where
  Http : tomlConfigHTTP
  Mqtt : tomlConfigMQTT
  Hass : tomlConfigHass
  deriving DecidableEq, Repr

/-- Go struct `tomlHassComponent`; a `*string` field is an `Option String`,
`nil` being `none`. -/
structure tomlHassComponent where
  Platform : Option String
  DeviceClass : Option String
  Icon : Option String
  UnitClass : Option String
  Unit : Option String
  Name : Option String
  deriving DecidableEq, Repr

/-- Go struct `tomlComponents`; the map `Sensors` is an association list read
with `List.lookup`. -/
structure tomlComponents where
  Sensors : List (String × tomlHassComponent)
  deriving DecidableEq, Repr

/-- The zero value `hassMqttConfigDevice{}`. -/
def hassMqttConfigDevice.zero : hassMqttConfigDevice :=
  { Identifiers := [], Manufacturer := "", Model := "", Name := "", SWVersion := "" }

/-- The zero value `hassMqttConfig{}`. -/
def hassMqttConfig.zero : hassMqttConfig :=
  { AvailabilityTopic := "", ConfigTopic := "", Device := hassMqttConfigDevice.zero,
    Name := "", Qos := 0, StateTopic := "", UniqueId := "", Icon := "",
    UnitOfMeasurement := "", Platform := "" }

/-- Go type `url.Values`, a `map[string][]string`: the parsed query. -/
abbrev Values := List (String × List String)

/-- Go method `url.Values.Get`: the first value of the key, `""` when the key
is absent or has no value. -/
def Values.Get (v : Values) (key : String) : String :=
  match v.lookup key with
  | some (x :: _) => x
  | _ => ""

/-! ## Topic and identity naming -/

/-- Go `getHassMQTTAvailabilityTopic`. -/
def getHassMQTTAvailabilityTopic (sensor_type unique_id key : String) : String :=
  "homeassistant/" ++ sensor_type ++ "/" ++ unique_id ++ "/" ++ key ++ "/availability"

/-- Go `getHassMQTTStateTopic`. -/
def getHassMQTTStateTopic (sensor_type unique_id key : String) : String :=
  "homeassistant/" ++ sensor_type ++ "/" ++ unique_id ++ "/" ++ key ++ "/state"

/-- Go `getHassMQTTConfigTopic`. -/
def getHassMQTTConfigTopic (sensor_type unique_id key : String) : String :=
  "homeassistant/" ++ sensor_type ++ "/" ++ unique_id ++ "/" ++ key ++ "/config"

/-- Go `getHassMQTTUniqueId`: `Sprintf("%s_%s", unique_id, key)`. -/
def getHassMQTTUniqueId (key unique_id : String) : String :=
  unique_id ++ "_" ++ key

/-! ## Discovery document builder -/

/-- Go `getHassMQTTConfig`.  The result is `none` when the function panics,
which happens at `*value.Platform` for a registry entry whose `Platform` is
`nil`. -/
def getHassMQTTConfig (config : tomlConfig) (components : tomlComponents)
    (key unique_id : String) : Option hassMqttConfig :=
  let device_config := hassMqttConfig.zero
  let device := hassMqttConfigDevice.zero
  let device := { device with Identifiers := device.Identifiers ++ [unique_id] }
  let device := { device with Model := config.Hass.DeviceModel }
  let device := if device.Model = "" then { device with Model := "ws-2902a" } else device
  let device := { device with Name := config.Hass.DeviceName }
  let device := if device.Name = "" then { device with Name := "ws-2902a" } else device
  let device := { device with Manufacturer := config.Hass.Manufacturer }
  let device :=
    if device.Manufacturer = "" then { device with Manufacturer := "Ambient Weather" }
    else device
  match components.Sensors.lookup key with
  | some value =>
    let device_config :=
      match value.Name with
      | some n => { device_config with Name := n }
      | none => { device_config with Name := key }
    match value.Platform with
    | none => none
    | some platform =>
      let device_config := { device_config with Platform := platform }
      let device_config :=
        match value.Unit with
        | some u => { device_config with UnitOfMeasurement := u }
        | none => device_config
      let device_config := { device_config with
        AvailabilityTopic :=
          getHassMQTTAvailabilityTopic platform unique_id device_config.Name }
      let device_config := { device_config with
        StateTopic := getHassMQTTStateTopic platform unique_id device_config.Name }
      let device_config := { device_config with
        ConfigTopic := getHassMQTTConfigTopic platform unique_id device_config.Name }
      let device_config := { device_config with Device := device }
      let device_config := { device_config with Qos := 1 }
      let device_config := { device_config with
        UniqueId := getHassMQTTUniqueId key unique_id }
      some device_config
  | none => some device_config

/-! ## Serialisation -/

/-- Lower-case hexadecimal digit of a number below 16. -/
def hexDigit (n : Nat) : Char :=
  if n < 10 then Char.ofNat (48 + n) else Char.ofNat (87 + n)

/-- What `encoding/json` writes for one character of a string, HTML escaping
on (the default of `json.Marshal`); `\b` and `\f` as written since Go 1.22. -/
def jsonEscapeChar (c : Char) : List Char :=
  if c = '"' then ['\\', '"']
  else if c = '\\' then ['\\', '\\']
  else if c = '\n' then ['\\', 'n']
  else if c = '\r' then ['\\', 'r']
  else if c = '\t' then ['\\', 't']
  else if c.toNat = 8 then ['\\', 'b']
  else if c.toNat = 12 then ['\\', 'f']
  else if c.toNat < 32 ∨ c = '<' ∨ c = '>' ∨ c = '&' then
    ['\\', 'u', '0', '0', hexDigit (c.toNat / 16), hexDigit (c.toNat % 16)]
  else if c.toNat = 0x2028 then ['\\', 'u', '2', '0', '2', '8']
  else if c.toNat = 0x2029 then ['\\', 'u', '2', '0', '2', '9']
  else [c]

/-- A Go string as a JSON string literal. -/
def jsonString (s : String) : String :=
  "\"" ++ String.mk (s.data.flatMap jsonEscapeChar) ++ "\""

/-- A Go `[]string` as a JSON array; a nil slice is `null`. -/
def jsonStringArray : List String → String
  | [] => "null"
  | x :: xs => "[" ++ xs.foldl (fun acc y => acc ++ "," ++ jsonString y) (jsonString x) ++ "]"

/-- Go `json.Marshal` at type `hassMqttConfigDevice`, fields in declaration
order under their `json` tags. -/
def jsonMarshalDevice (d : hassMqttConfigDevice) : String :=
  "\x7b\"identifiers\":" ++ jsonStringArray d.Identifiers ++
  ",\"manufacturer\":" ++ jsonString d.Manufacturer ++
  ",\"model\":" ++ jsonString d.Model ++
  ",\"name\":" ++ jsonString d.Name ++
  ",\"sw_version\":" ++ jsonString d.SWVersion ++ "\x7d"

/-- Go `packComponentConfig`: `json.Marshal` at type `hassMqttConfig`.
`ConfigTopic` and `Platform` carry the tag `json:"-"` and are left out, `Icon`
is `omitempty`.  Marshalling a struct of strings, an int and a string slice
does not fail, so the `logger.Fatalf` branch is not reached. -/
def packComponentConfig (component : hassMqttConfig) : String :=
  "\x7b\"availability_topic\":" ++ jsonString component.AvailabilityTopic ++
  ",\"device\":" ++ jsonMarshalDevice component.Device ++
  ",\"name\":" ++ jsonString component.Name ++
  ",\"qos\":" ++ toString component.Qos ++
  ",\"state_topic\":" ++ jsonString component.StateTopic ++
  ",\"unique_id\":" ++ jsonString component.UniqueId ++
  (if component.Icon = "" then "" else ",\"icon\":" ++ jsonString component.Icon) ++
  ",\"unit_of_measurement\":" ++ jsonString component.UnitOfMeasurement ++ "\x7d"

/-! ## Ingestion handler -/

/-- Go `arrayContains`, at the only type it is called with (a `[]string` and a
`string`): a linear scan comparing each element with the item. -/
def arrayContains : List String → String → Bool
  | [], _ => false
  | x :: xs, item => if x = item then true else arrayContains xs item

/-- The four `client.Publish` call sites of `processData`. -/
inductive PublishSite where
  | raw
  | availability
  | state
  | config
  deriving DecidableEq, Repr

/-- The arguments of one `client.Publish(topic, qos, retained, payload)`. -/
structure Publish where
  topic : String
  qos : Nat
  retained : Bool
  payload : String
  deriving DecidableEq, Repr

/-- One `client.Publish` call of the handler: its arguments, the call site and
the value of the loop variable `key` at the call. -/
structure Event where
  site : PublishSite
  key : String
  msg : Publish
  deriving DecidableEq, Repr

/-- What the handler wrote to the `http.ResponseWriter`. -/
structure Response where
  contentType : String
  status : Nat
  body : String
  deriving DecidableEq, Repr

/-- One run of the handler: the publishes in order, and the response, `none`
when the handler panicked before writing it. -/
structure Outcome where
  published : List Event
  response : Option Response
  deriving DecidableEq, Repr

/-- Go `for key, val := range m { body }` over the entries in the order given.
The body returns its publishes and whether it completed; a body that panics
ends the loop. -/
def forRange (body : String × List String → List Event × Bool) :
    Values → List Event × Bool
  | [] => ([], true)
  | e :: rest =>
    match body e with
    | (evs, false) => (evs, false)
    | (evs, true) => (evs ++ (forRange body rest).1, (forRange body rest).2)

/-- Go conversion `byte(n)` of an `int`. -/
def byteOfInt (n : Int) : Nat := (n % 256).toNat

/-- First byte of the UTF-8 encoding of a character. -/
def utf8FirstByte (c : Char) : Nat :=
  if c.toNat < 0x80 then c.toNat
  else if c.toNat < 0x800 then 0xC0 + c.toNat / 0x40
  else if c.toNat < 0x10000 then 0xE0 + c.toNat / 0x1000
  else 0xF0 + c.toNat / 0x40000

/-- Go `string(s[0])` for a non-empty string `s`: the byte `s[0]` converted to
the string holding the code point of that value.  `none` for the empty string,
where `s[0]` panics. -/
def stringOfFirstByte (s : String) : Option String :=
  match s.data with
  | [] => none
  | c :: _ => some (String.singleton (Char.ofNat (utf8FirstByte c)))

/-- Go `strings.Replace(s, old, new, -1)` for one-character `old` and `new`:
every occurrence of `old` becomes `new`. -/
def stringsReplaceAll (s : String) (old new : Char) : String :=
  String.mk (s.data.map (fun c => if c = old then new else c))

/-- The `ignoredFields` slice of `processData`. -/
def ignoredFields : List String := ["PASSKEY", "stationtype", "dateutc"]

/-- Body of the first loop of `processData` (lines 252-258). -/
def rawBody (config : tomlConfig) (e : String × List String) : List Event × Bool :=
  match e.2 with
  | [] => ([], false)
  | v :: _ =>
    let topic := config.Mqtt.TopicPrefix ++ "/" ++ config.Mqtt.Topic ++ "/" ++ e.1
    ([⟨.raw, e.1, ⟨topic, 0, false, v⟩⟩], true)

/-- Body of the discovery loop of `processData` (lines 276-298). -/
def discoveryBody (config : tomlConfig) (components : tomlComponents)
    (objectId stationType : String) (e : String × List String) : List Event × Bool :=
  if arrayContains ignoredFields e.1 then ([], true)
  else
    match getHassMQTTConfig config components e.1 objectId with
    | none => ([], false)
    | some component =>
      let component :=
        { component with Device := { component.Device with SWVersion := stationType } }
      if component.Platform ≠ "" then
        let a : Event := ⟨.availability, e.1,
          ⟨component.AvailabilityTopic, byteOfInt component.Qos, false, "online"⟩⟩
        match e.2 with
        | [] => ([a], false)
        | v :: _ =>
          ([a,
            ⟨.state, e.1, ⟨component.StateTopic, byteOfInt component.Qos, false, v⟩⟩,
            ⟨.config, e.1, ⟨component.ConfigTopic, byteOfInt component.Qos, false,
              packComponentConfig component⟩⟩], true)
      else ([], true)

/-- The station identity of lines 265-269: the configured `ObjectId`, else the
`PASSKEY` field with every `:` replaced by `-`. -/
def objectIdOf (config : tomlConfig) (query : Values) : String :=
  if config.Hass.ObjectId ≠ "" then config.Hass.ObjectId
  else stringsReplaceAll (query.Get "PASSKEY") ':' '-'

/-- The station type of lines 271-274. -/
def stationTypeOf (query : Values) : String :=
  if query.Get "stationtype" ≠ "" then
    (stringOfFirstByte (query.Get "stationtype")).getD ""
  else ""

/-- The response of lines 301-304. -/
def acceptedResponse (query : Values) : Response :=
  { contentType := "application/json", status := 200,
    body := "\x7b \"status\": \"accepted\", \"num_values\": " ++ toString query.length ++
      " \x7d" }

/-- Go `processData`.  `query` is the parsed query map, `order1` and `order2`
the orders in which the first and the second `range query` visit its
entries. -/
def processData (config : tomlConfig) (components : tomlComponents)
    (query order1 order2 : Values) : Outcome :=
  let r1 := forRange (rawBody config) order1
  if r1.2 = false then ⟨r1.1, none⟩
  else if config.Hass.Discovery then
    let objectId := objectIdOf config query
    let stationType := stationTypeOf query
    let r2 := forRange (discoveryBody config components objectId stationType) order2
    if r2.2 = false then ⟨r1.1 ++ r2.1, none⟩
    else ⟨r1.1 ++ r2.1, some (acceptedResponse query)⟩
  else ⟨r1.1, some (acceptedResponse query)⟩

/-- The query is a map as `url.ParseQuery` builds it (distinct keys, every key
with at least one value) and both loop orders enumerate its entries. -/
def RangeOrders (query order1 order2 : Values) : Prop :=
  (query.map Prod.fst).Nodup ∧ (∀ e ∈ query, e.2 ≠ []) ∧
    order1.Perm query ∧ order2.Perm query

instance (query order1 order2 : Values) : Decidable (RangeOrders query order1 order2) := by
  unfold RangeOrders
  infer_instance

/-- Every registry entry carries a platform kind. -/
def RegistryHasPlatforms (components : tomlComponents) : Prop :=
  ∀ e ∈ components.Sensors, e.2.Platform ≠ none

instance (components : tomlComponents) : Decidable (RegistryHasPlatforms components) := by
  unfold RegistryHasPlatforms
  infer_instance

/-- The device block `getHassMQTTConfig` builds before the registry lookup. -/
def deviceOf (config : tomlConfig) (unique_id : String) : hassMqttConfigDevice :=
  { Identifiers := [unique_id],
    Manufacturer :=
      if config.Hass.Manufacturer = "" then "Ambient Weather" else config.Hass.Manufacturer,
    Model := if config.Hass.DeviceModel = "" then "ws-2902a" else config.Hass.DeviceModel,
    Name := if config.Hass.DeviceName = "" then "ws-2902a" else config.Hass.DeviceName,
    SWVersion := "" }

/-- The event of the first loop for one entry of the query: the key's first
value, unmodified, to `TopicPrefix/Topic/key` with quality-of-service 0 and no
retain. -/
def rawEvent (config : tomlConfig) (e : String × List String) : Event :=
  ⟨.raw, e.1, ⟨config.Mqtt.TopicPrefix ++ "/" ++ config.Mqtt.Topic ++ "/" ++ e.1, 0, false,
    e.2.headD ""⟩⟩

/-- The three discovery events of a resolved document, in the order
availability, state, config. -/
def discoveryEvents (key value : String) (sent : hassMqttConfig) : List Event :=
  [⟨.availability, key, ⟨sent.AvailabilityTopic, 1, false, "online"⟩⟩,
   ⟨.state, key, ⟨sent.StateTopic, 1, false, value⟩⟩,
   ⟨.config, key, ⟨sent.ConfigTopic, 1, false, packComponentConfig sent⟩⟩]

/-- A document with the handler's per-request software version filled in
(line 282). -/
def withSWVersion (doc : hassMqttConfig) (stationType : String) : hassMqttConfig :=
  { doc with Device := { doc.Device with SWVersion := stationType } }

/-- Where a scan of a JSON text stands: between tokens, inside a string
literal, or right after a backslash inside a string literal. -/
inductive JsonScan where
  | outside
  | inString
  | escaped
  deriving DecidableEq, Repr

/-- A JSON text without the insignificant whitespace (space, line feed,
carriage return, tab) around its tokens; characters of string literals are
kept. -/
def jsonCompactAux : JsonScan → List Char → List Char
  | _, [] => []
  | .outside, c :: cs =>
    if c = ' ' ∨ c = '\n' ∨ c = '\r' ∨ c = '\t' then jsonCompactAux .outside cs
    else if c = '"' then c :: jsonCompactAux .inString cs
    else c :: jsonCompactAux .outside cs
  | .inString, c :: cs =>
    if c = '"' then c :: jsonCompactAux .outside cs
    else if c = '\\' then c :: jsonCompactAux .escaped cs
    else c :: jsonCompactAux .inString cs
  | .escaped, c :: cs => c :: jsonCompactAux .inString cs

/-- Two JSON texts with the same compact form denote the same value. -/
def jsonCompact (s : String) : String := String.mk (jsonCompactAux .outside s.data)

/-- Characters that the compaction copies when it stands between tokens. -/
def plainChar (c : Char) : Prop :=
  ¬ (c = ' ' ∨ c = '\n' ∨ c = '\r' ∨ c = '\t') ∧ c ≠ '"'

/-! ## Sample data -/

def sampleConfig : tomlConfig :=
  { Http := { Port := 8080 },
    Mqtt := { BrokerHost := "localhost", BrokerPort := 1883, BrokerUsername := "",
              BrokerPassword := "", ClientId := "ambient2mqtt", TopicPrefix := "weather",
              Topic := "ws" },
    Hass := { Discovery := true, DiscoveryPrefix := "homeassistant", ObjectId := "",
              DeviceModel := "", DeviceName := "", Manufacturer := "" } }

def sampleConfigNoDiscovery : tomlConfig :=
  { sampleConfig with Hass := { sampleConfig.Hass with Discovery := false } }

def sampleConfigNamed : tomlConfig :=
  { sampleConfig with Hass := { sampleConfig.Hass with DeviceModel := "ws-5000" } }

def sampleSensor (unit : String) : tomlHassComponent :=
  { Platform := some "sensor", DeviceClass := none, Icon := none, UnitClass := none,
    Unit := some unit, Name := none }

def sampleComponents : tomlComponents :=
  { Sensors := [("tempf", sampleSensor "°F"), ("humidity", sampleSensor "%")] }

def registryWithReserved : tomlComponents :=
  { Sensors := [("PASSKEY", sampleSensor ""), ("dateutc", sampleSensor ""),
      ("stationtype", sampleSensor ""), ("tempf", sampleSensor "°F")] }

def sampleQuery : Values :=
  [("PASSKEY", ["AA:BB:CC"]), ("tempf", ["72.5"]), ("humidity", ["45"]),
   ("dateutc", ["2024-01-01"])]


def sampleTempfDoc : hassMqttConfig :=
  { AvailabilityTopic := "homeassistant/sensor/AA-BB-CC/tempf/availability",
    ConfigTopic := "homeassistant/sensor/AA-BB-CC/tempf/config",
    Device := { Identifiers := ["AA-BB-CC"], Manufacturer := "Ambient Weather",
                Model := "ws-2902a", Name := "ws-2902a", SWVersion := "" },
    Name := "tempf", Qos := 1,
    StateTopic := "homeassistant/sensor/AA-BB-CC/tempf/state",
    UniqueId := "AA-BB-CC_tempf", Icon := "", UnitOfMeasurement := "°F",
    Platform := "sensor" }

def stationtypeQuery : Values :=
  [("PASSKEY", ["AA:BB:CC"]), ("stationtype", ["AMBWeatherV4.2.9"]), ("tempf", ["72.5"])]

/-! ## Helper lemmas -/

theorem arrayContains_iff (l : List String) (item : String) :
    arrayContains l item = true ↔ item ∈ l := by
  induction l with
  | nil => simp [arrayContains]
  | cons x xs ih =>
    by_cases h : x = item
    · simp [arrayContains, h]
    · have h2 : ¬ item = x := fun e => h e.symm
      simp [arrayContains, h, h2, ih]

theorem lookup_mem {β : Type} (l : List (String × β)) (k : String) (b : β)
    (h : l.lookup k = some b) : (k, b) ∈ l := by
  induction l with
  | nil => simp at h
  | cons x xs ih =>
    obtain ⟨k2, b2⟩ := x
    by_cases hk : k = k2
    · subst hk
      simp at h
      simp [h]
    · have hb : (k == k2) = false := by simpa using hk
      rw [List.lookup_cons, hb] at h
      exact List.mem_cons_of_mem _ (ih h)

theorem getHassMQTTConfig_absent (config : tomlConfig) (components : tomlComponents)
    (key unique_id : String) (h : components.Sensors.lookup key = none) :
    getHassMQTTConfig config components key unique_id = some hassMqttConfig.zero := by
  simp [getHassMQTTConfig, h]

theorem getHassMQTTConfig_present (config : tomlConfig) (components : tomlComponents)
    (key unique_id : String) (value : tomlHassComponent) (platform : String)
    (h : components.Sensors.lookup key = some value)
    (hp : value.Platform = some platform) :
    getHassMQTTConfig config components key unique_id = some
      { AvailabilityTopic :=
          getHassMQTTAvailabilityTopic platform unique_id (value.Name.getD key),
        ConfigTopic := getHassMQTTConfigTopic platform unique_id (value.Name.getD key),
        Device := deviceOf config unique_id,
        Name := value.Name.getD key,
        Qos := 1,
        StateTopic := getHassMQTTStateTopic platform unique_id (value.Name.getD key),
        UniqueId := getHassMQTTUniqueId key unique_id,
        Icon := "",
        UnitOfMeasurement := value.Unit.getD "",
        Platform := platform } := by
  simp only [getHassMQTTConfig, h, hp, deviceOf, hassMqttConfig.zero,
    hassMqttConfigDevice.zero, List.nil_append]
  cases value.Name <;> cases value.Unit <;>
    by_cases h1 : config.Hass.DeviceModel = "" <;>
    by_cases h2 : config.Hass.DeviceName = "" <;>
    by_cases h3 : config.Hass.Manufacturer = "" <;>
    simp [h1, h2, h3]

/-! ### The range loop -/

theorem forRange_mem (body : String × List String → List Event × Bool) (l : Values)
    (ev : Event) (h : ev ∈ (forRange body l).1) : ∃ e ∈ l, ev ∈ (body e).1 := by
  induction l with
  | nil => simp [forRange] at h
  | cons e rest ih =>
    rcases hb : body e with ⟨evs, ok⟩
    cases ok with
    | false =>
      simp only [forRange, hb] at h
      exact ⟨e, List.mem_cons_self _ _, by rw [hb]; exact h⟩
    | true =>
      simp only [forRange, hb, List.mem_append] at h
      rcases h with h | h
      · exact ⟨e, List.mem_cons_self _ _, by rw [hb]; exact h⟩
      · obtain ⟨e2, he2, hev⟩ := ih h
        exact ⟨e2, List.mem_cons_of_mem _ he2, hev⟩

theorem forRange_complete (body : String × List String → List Event × Bool) (l : Values)
    (h : ∀ e ∈ l, (body e).2 = true) :
    forRange body l = (l.flatMap (fun e => (body e).1), true) := by
  induction l with
  | nil => simp [forRange]
  | cons e rest ih =>
    have he := h e (List.mem_cons_self _ _)
    have ihr := ih (fun x hx => h x (List.mem_cons_of_mem _ hx))
    rcases hb : body e with ⟨evs, ok⟩
    rw [hb] at he
    simp only at he
    subst he
    simp [forRange, hb, ihr]

/-! ### The loop bodies -/

theorem rawBody_of_ne_nil (config : tomlConfig) (e : String × List String)
    (h : e.2 ≠ []) : rawBody config e = ([rawEvent config e], true) := by
  obtain ⟨k, vals⟩ := e
  cases vals with
  | nil => exact absurd rfl h
  | cons v vs => simp [rawBody, rawEvent]

theorem rawBody_mem (config : tomlConfig) (e : String × List String) (ev : Event)
    (h : ev ∈ (rawBody config e).1) : ev.site = .raw ∧ ev.key = e.1 := by
  obtain ⟨k, vals⟩ := e
  cases vals with
  | nil => simp [rawBody] at h
  | cons v vs =>
    simp only [rawBody, List.mem_singleton] at h
    subst h
    exact ⟨rfl, rfl⟩

theorem getHassMQTTConfig_qos (config : tomlConfig) (components : tomlComponents)
    (key unique_id : String) (doc : hassMqttConfig)
    (h : getHassMQTTConfig config components key unique_id = some doc)
    (hp : doc.Platform ≠ "") : doc.Qos = 1 := by
  cases hl : components.Sensors.lookup key with
  | none =>
    rw [getHassMQTTConfig_absent _ _ _ _ hl] at h
    cases h
    exact absurd rfl hp
  | some value =>
    cases hv : value.Platform with
    | none => simp [getHassMQTTConfig, hl, hv] at h
    | some platform =>
      rw [getHassMQTTConfig_present _ _ _ _ _ _ hl hv] at h
      cases h
      rfl

theorem getHassMQTTConfig_isSome (config : tomlConfig) (components : tomlComponents)
    (key unique_id : String) (hreg : RegistryHasPlatforms components) :
    ∃ doc, getHassMQTTConfig config components key unique_id = some doc := by
  cases hl : components.Sensors.lookup key with
  | none => exact ⟨_, getHassMQTTConfig_absent _ _ _ _ hl⟩
  | some value =>
    cases hv : value.Platform with
    | none => exact absurd hv (hreg _ (lookup_mem _ _ _ hl))
    | some platform => exact ⟨_, getHassMQTTConfig_present _ _ _ _ _ _ hl hv⟩

theorem discoveryBody_mem (config : tomlConfig) (components : tomlComponents)
    (objectId stationType : String) (e : String × List String) (ev : Event)
    (h : ev ∈ (discoveryBody config components objectId stationType e).1) :
    ev.key = e.1 ∧ ev.site ≠ .raw ∧ arrayContains ignoredFields e.1 = false ∧
      ∃ doc, getHassMQTTConfig config components e.1 objectId = some doc ∧
        doc.Platform ≠ "" := by
  obtain ⟨k, vals⟩ := e
  unfold discoveryBody at h
  cases hi : arrayContains ignoredFields k with
  | true => simp [hi] at h
  | false =>
    cases hg : getHassMQTTConfig config components k objectId with
    | none => simp [hi, hg] at h
    | some doc =>
      by_cases hp : doc.Platform = ""
      · simp [hi, hg, hp] at h
      · refine ⟨?_, ?_, rfl, doc, rfl, hp⟩
        · cases vals with
          | nil =>
            simp [hi, hg, hp] at h
            subst h; rfl
          | cons v vs =>
            simp [hi, hg, hp] at h
            rcases h with h | h | h <;> subst h <;> rfl
        · cases vals with
          | nil =>
            simp [hi, hg, hp] at h
            subst h; simp
          | cons v vs =>
            simp [hi, hg, hp] at h
            rcases h with h | h | h <;> subst h <;> simp

theorem discoveryBody_resolved (config : tomlConfig) (components : tomlComponents)
    (objectId stationType key v : String) (vs : List String) (doc : hassMqttConfig)
    (hi : arrayContains ignoredFields key = false)
    (hg : getHassMQTTConfig config components key objectId = some doc)
    (hp : doc.Platform ≠ "") :
    discoveryBody config components objectId stationType (key, v :: vs) =
      (discoveryEvents key v (withSWVersion doc stationType), true) := by
  have hq := getHassMQTTConfig_qos _ _ _ _ _ hg hp
  simp [discoveryBody, hi, hg, hp, hq, discoveryEvents, withSWVersion, byteOfInt]

theorem discoveryBody_ok (config : tomlConfig) (components : tomlComponents)
    (objectId stationType : String) (e : String × List String)
    (hreg : RegistryHasPlatforms components) (hne : e.2 ≠ []) :
    (discoveryBody config components objectId stationType e).2 = true := by
  obtain ⟨k, vals⟩ := e
  cases vals with
  | nil => exact absurd rfl hne
  | cons v vs =>
    obtain ⟨doc, hg⟩ := getHassMQTTConfig_isSome config components k objectId hreg
    cases hi : arrayContains ignoredFields k with
    | true => simp [discoveryBody, hi]
    | false =>
      by_cases hp : doc.Platform = ""
      · simp [discoveryBody, hi, hg, hp]
      · rw [discoveryBody_resolved _ _ _ _ _ _ _ _ hi hg hp]

/-! ### The handler -/

theorem RangeOrders.ne_nil_left {query order1 order2 : Values}
    (h : RangeOrders query order1 order2) : ∀ e ∈ order1, e.2 ≠ [] :=
  fun e he => h.2.1 e (h.2.2.1.subset he)

theorem RangeOrders.ne_nil_right {query order1 order2 : Values}
    (h : RangeOrders query order1 order2) : ∀ e ∈ order2, e.2 ≠ [] :=
  fun e he => h.2.1 e (h.2.2.2.subset he)

theorem rawLoop_eq (config : tomlConfig) (l : Values) (h : ∀ e ∈ l, e.2 ≠ []) :
    forRange (rawBody config) l = (l.map (rawEvent config), true) := by
  rw [forRange_complete _ _ (fun e he => by rw [rawBody_of_ne_nil config e (h e he)])]
  congr 1
  induction l with
  | nil => rfl
  | cons e rest ih =>
    rw [List.flatMap_cons, List.map_cons, rawBody_of_ne_nil config e (h e (List.mem_cons_self _ _)),
      ih (fun x hx => h x (List.mem_cons_of_mem _ hx))]
    rfl

/-- The publishes of a run whose query is well formed: the raw events in the
order of the first loop, then whatever the discovery loop published. -/
theorem processData_published (config : tomlConfig) (components : tomlComponents)
    (query order1 order2 : Values) (h : RangeOrders query order1 order2) :
    (processData config components query order1 order2).published =
      order1.map (rawEvent config) ++
        (if config.Hass.Discovery then
          (forRange (discoveryBody config components (objectIdOf config query)
            (stationTypeOf query)) order2).1
        else []) := by
  have h1 := rawLoop_eq config order1 h.ne_nil_left
  unfold processData
  simp only [h1]
  cases config.Hass.Discovery with
  | false => simp
  | true =>
    cases hr : (forRange (discoveryBody config components (objectIdOf config query)
        (stationTypeOf query)) order2).2 <;> simp [hr]

theorem processData_response (config : tomlConfig) (components : tomlComponents)
    (query order1 order2 : Values) (h : RangeOrders query order1 order2)
    (hreg : RegistryHasPlatforms components) :
    (processData config components query order1 order2).response =
      some (acceptedResponse query) := by
  have h1 := rawLoop_eq config order1 h.ne_nil_left
  have h2 := forRange_complete
    (discoveryBody config components (objectIdOf config query) (stationTypeOf query)) order2
    (fun e he => discoveryBody_ok _ _ _ _ e hreg (h.ne_nil_right e he))
  unfold processData
  simp only [h1, h2]
  cases config.Hass.Discovery <;> simp

theorem processData_published_mem (config : tomlConfig) (components : tomlComponents)
    (query order1 order2 : Values) (ev : Event)
    (h : ev ∈ (processData config components query order1 order2).published) :
    (∃ e ∈ order1, ev ∈ (rawBody config e).1) ∨
      (config.Hass.Discovery = true ∧ ∃ e ∈ order2,
        ev ∈ (discoveryBody config components (objectIdOf config query)
          (stationTypeOf query) e).1) := by
  unfold processData at h
  cases h1 : (forRange (rawBody config) order1).2 with
  | false =>
    simp only [h1, if_true] at h
    exact Or.inl (forRange_mem _ _ _ h)
  | true =>
    cases hd : config.Hass.Discovery with
    | false =>
      simp [h1, hd] at h
      exact Or.inl (forRange_mem _ _ _ h)
    | true =>
      have h3 : ev ∈ (forRange (rawBody config) order1).1 ∨
          ev ∈ (forRange (discoveryBody config components (objectIdOf config query)
            (stationTypeOf query)) order2).1 := by
        cases h2 : (forRange (discoveryBody config components (objectIdOf config query)
            (stationTypeOf query)) order2).2 <;> simpa [h1, hd, h2] using h
      rcases h3 with h3 | h3
      · exact Or.inl (forRange_mem _ _ _ h3)
      · exact Or.inr ⟨rfl, forRange_mem _ _ _ h3⟩

theorem keys_ne_of_split (l1 l2 : Values) (x : String × List String)
    (h : ((l1 ++ x :: l2).map Prod.fst).Nodup) :
    (∀ e ∈ l1, e.1 ≠ x.1) ∧ (∀ e ∈ l2, e.1 ≠ x.1) := by
  rw [List.map_append, List.map_cons, List.nodup_append] at h
  obtain ⟨_, h2, h3⟩ := h
  rw [List.nodup_cons] at h2
  constructor
  · intro e he heq
    exact h3 (List.mem_map_of_mem Prod.fst he) (heq ▸ List.mem_cons_self _ _)
  · intro e he heq
    exact h2.1 (heq ▸ List.mem_map_of_mem Prod.fst he)

theorem RangeOrders.nodup_left {query order1 order2 : Values}
    (h : RangeOrders query order1 order2) : (order1.map Prod.fst).Nodup :=
  (h.2.2.1.map Prod.fst).nodup_iff.mpr h.1

theorem RangeOrders.nodup_right {query order1 order2 : Values}
    (h : RangeOrders query order1 order2) : (order2.map Prod.fst).Nodup :=
  (h.2.2.2.map Prod.fst).nodup_iff.mpr h.1

theorem filter_key_rawEvents (config : tomlConfig) (l : Values) (key : String)
    (x : String × List String) (hx : x ∈ l) (hk : x.1 = key)
    (hnd : (l.map Prod.fst).Nodup) :
    (l.map (rawEvent config)).filter (fun ev => decide (ev.key = key)) =
      [rawEvent config x] := by
  obtain ⟨l1, l2, rfl⟩ := List.append_of_mem hx
  obtain ⟨hl1, hl2⟩ := keys_ne_of_split l1 l2 x hnd
  have f1 : (l1.map (rawEvent config)).filter (fun ev => decide (ev.key = key)) = [] := by
    rw [List.filter_eq_nil_iff]
    intro ev hev
    obtain ⟨e, he, rfl⟩ := List.mem_map.mp hev
    simpa [rawEvent, ← hk] using hl1 e he
  have f2 : (l2.map (rawEvent config)).filter (fun ev => decide (ev.key = key)) = [] := by
    rw [List.filter_eq_nil_iff]
    intro ev hev
    obtain ⟨e, he, rfl⟩ := List.mem_map.mp hev
    simpa [rawEvent, ← hk] using hl2 e he
  have f3 : decide ((rawEvent config x).key = key) = true := by
    simpa [rawEvent] using hk
  rw [List.map_append, List.map_cons, List.filter_append, List.filter_cons, f1, f2, f3]
  rfl

/-! ### Strings -/

theorem append_sep_inj (x : Char) (a a2 b b2 : List Char) (ha : x ∉ a) (ha2 : x ∉ a2)
    (h : a ++ x :: b = a2 ++ x :: b2) : a = a2 ∧ b = b2 := by
  induction a generalizing a2 with
  | nil =>
    cases a2 with
    | nil => simpa using h
    | cons c cs =>
      simp only [List.nil_append, List.cons_append, List.cons.injEq] at h
      exact absurd (h.1 ▸ List.mem_cons_self _ _) ha2
  | cons c cs ih =>
    cases a2 with
    | nil =>
      simp only [List.nil_append, List.cons_append, List.cons.injEq] at h
      exact absurd (h.1 ▸ List.mem_cons_self _ _) ha
    | cons c2 cs2 =>
      simp only [List.cons_append, List.cons.injEq] at h
      obtain ⟨h1, h2⟩ := ih cs2 (fun hm => ha (List.mem_cons_of_mem _ hm))
        (fun hm => ha2 (List.mem_cons_of_mem _ hm)) h.2
      exact ⟨by rw [h.1, h1], h2⟩

theorem toDigitsCore_all (P : Char → Prop) (hP : ∀ d, d < 10 → P (Nat.digitChar d))
    (fuel n : Nat) (ds : List Char) (hds : ∀ c ∈ ds, P c) :
    ∀ c ∈ Nat.toDigitsCore 10 fuel n ds, P c := by
  induction fuel generalizing n ds with
  | zero => simpa [Nat.toDigitsCore] using hds
  | succ f ih =>
    have hcons : ∀ c ∈ Nat.digitChar (n % 10) :: ds, P c := by
      intro c hc
      rcases List.mem_cons.mp hc with rfl | hc
      · exact hP _ (Nat.mod_lt _ (by decide))
      · exact hds c hc
    unfold Nat.toDigitsCore
    by_cases h0 : n / 10 = 0
    · simpa [h0] using hcons
    · simp only [h0, if_false]
      exact ih _ _ hcons

theorem plainChar_digitChar (d : Nat) (h : d < 10) : plainChar (Nat.digitChar d) := by
  unfold plainChar
  interval_cases d <;> decide

theorem plainChar_toString (n : Nat) : ∀ c ∈ (toString n).data, plainChar c := by
  show ∀ c ∈ (Nat.toDigits 10 n), plainChar c
  exact toDigitsCore_all plainChar plainChar_digitChar _ _ [] (by simp)

theorem jsonCompactAux_plain (ds rest : List Char) (h : ∀ c ∈ ds, plainChar c) :
    jsonCompactAux .outside (ds ++ rest) = ds ++ jsonCompactAux .outside rest := by
  induction ds with
  | nil => rfl
  | cons c cs ih =>
    have hc := h c (List.mem_cons_self _ _)
    have ihc := ih (fun x hx => h x (List.mem_cons_of_mem _ hx))
    simp only [List.cons_append, jsonCompactAux, if_neg hc.1, if_neg hc.2]
    exact congrArg (List.cons c) ihc

theorem jsonCompact_accepted (n : Nat) :
    jsonCompact ("\x7b \"status\": \"accepted\", \"num_values\": " ++ toString n ++ " \x7d") =
      "\x7b\"status\":\"accepted\",\"num_values\":" ++ toString n ++ "\x7d" := by
  apply String.ext
  simp only [jsonCompact, String.data_append]
  have hmid : jsonCompactAux .outside ((toString n).data ++ " \x7d".data) =
      (toString n).data ++ "\x7d".data := by
    rw [jsonCompactAux_plain _ _ (plainChar_toString n)]
    rfl
  have hpre : ∀ rest : List Char,
      jsonCompactAux .outside
        ("\x7b \"status\": \"accepted\", \"num_values\": ".data ++ rest) =
      "\x7b\"status\":\"accepted\",\"num_values\":".data ++
        jsonCompactAux .outside rest := by
    intro rest
    rfl
  rw [List.append_assoc, hpre, hmid, List.append_assoc]

/-! ## Properties -/

/-- C1: for a key whose registry entry exists and carries a platform kind,
`getHassMQTTConfig` returns a document whose `UniqueId` is the station id, an
underscore and the key, and whose availability, state and config topics are
`homeassistant/platform/stationId/sensorName` followed by `/availability`,
`/state` and `/config`, the sensor name being the entry's name override when
it has one and the raw key otherwise. -/
theorem getHassMQTTConfig_naming (config : tomlConfig) (components : tomlComponents)
    (key stationId : String) (entry : tomlHassComponent) (platform : String)
    (hentry : components.Sensors.lookup key = some entry)
    (hplatform : entry.Platform = some platform) :
    ∃ doc, getHassMQTTConfig config components key stationId = some doc ∧
      doc.UniqueId = stationId ++ "_" ++ key ∧
      doc.AvailabilityTopic =
        "homeassistant/" ++ platform ++ "/" ++ stationId ++ "/" ++
          (match entry.Name with | some n => n | none => key) ++ "/availability" ∧
      doc.StateTopic =
        "homeassistant/" ++ platform ++ "/" ++ stationId ++ "/" ++
          (match entry.Name with | some n => n | none => key) ++ "/state" ∧
      doc.ConfigTopic =
        "homeassistant/" ++ platform ++ "/" ++ stationId ++ "/" ++
          (match entry.Name with | some n => n | none => key) ++ "/config" := by
  refine ⟨_, getHassMQTTConfig_present config components key stationId entry platform
    hentry hplatform, ?_, ?_, ?_, ?_⟩ <;>
    cases entry.Name <;> rfl

theorem getHassMQTTConfig_naming_witness :
    sampleComponents.Sensors.lookup "tempf" = some (sampleSensor "°F") ∧
      (sampleSensor "°F").Platform = some "sensor" ∧
      ∃ doc, getHassMQTTConfig sampleConfig sampleComponents "tempf" "AA-BB-CC" = some doc ∧
        doc.UniqueId = "AA-BB-CC_tempf" ∧
        doc.AvailabilityTopic = "homeassistant/sensor/AA-BB-CC/tempf/availability" ∧
        doc.StateTopic = "homeassistant/sensor/AA-BB-CC/tempf/state" ∧
        doc.ConfigTopic = "homeassistant/sensor/AA-BB-CC/tempf/config" :=
  ⟨by decide, by decide,
    getHassMQTTConfig_naming sampleConfig sampleComponents "tempf" "AA-BB-CC"
      (sampleSensor "°F") "sensor" (by decide) (by decide)⟩

/-- C2: a key absent from the registry gets the empty record from
`getHassMQTTConfig`, whose platform is empty; and in a report holding that key,
handled with discovery enabled, the only publish `processData` makes for the
key is the raw value, once, with quality-of-service 0 and no retain, to
`TopicPrefix/Topic/key`: no availability, state or config publish for it. -/
theorem absent_key_raw_only (config : tomlConfig) (components : tomlComponents)
    (query order1 order2 : Values) (key v : String) (vs : List String)
    (hdisc : config.Hass.Discovery = true)
    (horders : RangeOrders query order1 order2)
    (habsent : components.Sensors.lookup key = none)
    (hmem : (key, v :: vs) ∈ query) :
    (∀ stationId,
      getHassMQTTConfig config components key stationId = some hassMqttConfig.zero) ∧
    hassMqttConfig.zero.Platform = "" ∧
    (processData config components query order1 order2).published.filter
        (fun ev => decide (ev.key = key)) =
      [⟨.raw, key,
        ⟨config.Mqtt.TopicPrefix ++ "/" ++ config.Mqtt.Topic ++ "/" ++ key, 0, false, v⟩⟩] := by
  refine ⟨fun stationId => getHassMQTTConfig_absent config components key stationId habsent,
    rfl, ?_⟩
  rw [processData_published config components query order1 order2 horders, hdisc,
    if_pos rfl, List.filter_append,
    filter_key_rawEvents config order1 key (key, v :: vs)
      (horders.2.2.1.symm.subset hmem) rfl horders.nodup_left]
  have hnil : (forRange (discoveryBody config components (objectIdOf config query)
      (stationTypeOf query)) order2).1.filter (fun ev => decide (ev.key = key)) = [] := by
    rw [List.filter_eq_nil_iff]
    intro ev hev hkey
    obtain ⟨e, _, hbody⟩ := forRange_mem _ _ _ hev
    obtain ⟨hk, _, _, doc, hdoc, hplat⟩ := discoveryBody_mem _ _ _ _ _ _ hbody
    have hek : e.1 = key := by rw [← hk]; simpa using hkey
    rw [hek, getHassMQTTConfig_absent config components key _ habsent] at hdoc
    cases hdoc
    exact hplat rfl
  rw [hnil]
  rfl

theorem absent_key_raw_only_witness :
    sampleConfig.Hass.Discovery = true ∧
      RangeOrders (("winddir", ["270"]) :: sampleQuery) (("winddir", ["270"]) :: sampleQuery)
        (sampleQuery ++ [("winddir", ["270"])]) ∧
      sampleComponents.Sensors.lookup "winddir" = none ∧
      (processData sampleConfig sampleComponents
          (("winddir", ["270"]) :: sampleQuery) (("winddir", ["270"]) :: sampleQuery)
          (sampleQuery ++ [("winddir", ["270"])])).published.filter
          (fun ev => decide (ev.key = "winddir")) =
        [⟨.raw, "winddir", ⟨"weather" ++ "/" ++ "ws" ++ "/" ++ "winddir", 0, false, "270"⟩⟩] :=
  ⟨rfl, by decide, by decide,
    (absent_key_raw_only sampleConfig sampleComponents
      (("winddir", ["270"]) :: sampleQuery) (("winddir", ["270"]) :: sampleQuery)
      (sampleQuery ++ [("winddir", ["270"])]) "winddir" "270" [] rfl
      (by decide) (by decide) (by decide)).2.2⟩

/-- C3: whatever the registry, the configuration and the report, every
publish `processData` makes for one of the keys "PASSKEY", "stationtype" and
"dateutc" is a raw-value publish: none is an availability, state or config
message, so the reserved keys produce no discovery document. -/
theorem ignored_keys_raw_only (config : tomlConfig) (components : tomlComponents)
    (query order1 order2 : Values) (ev : Event)
    (hev : ev ∈ (processData config components query order1 order2).published)
    (hkey : ev.key = "PASSKEY" ∨ ev.key = "stationtype" ∨ ev.key = "dateutc") :
    ev.site = .raw := by
  rcases processData_published_mem config components query order1 order2 ev hev with
    ⟨e, _, hb⟩ | ⟨_, e, _, hb⟩
  · exact (rawBody_mem config e ev hb).1
  · obtain ⟨hk, _, hi, _⟩ := discoveryBody_mem _ _ _ _ _ _ hb
    have hin : arrayContains ignoredFields e.1 = true := by
      rw [arrayContains_iff, ← hk]
      simpa [ignoredFields] using hkey
    rw [hin] at hi
    cases hi

theorem ignored_keys_raw_only_witness :
    (⟨.raw, "PASSKEY", ⟨"weather/ws/PASSKEY", 0, false, "AA:BB:CC"⟩⟩ : Event) ∈
        (processData sampleConfig registryWithReserved sampleQuery sampleQuery
          sampleQuery).published ∧
      (⟨.raw, "PASSKEY", ⟨"weather/ws/PASSKEY", 0, false, "AA:BB:CC"⟩⟩ : Event).site =
        .raw :=
  ⟨by decide,
    ignored_keys_raw_only sampleConfig registryWithReserved sampleQuery sampleQuery
      sampleQuery ⟨.raw, "PASSKEY", ⟨"weather/ws/PASSKEY", 0, false, "AA:BB:CC"⟩⟩
      (by decide) (Or.inl rfl)⟩

/-- C4: with discovery enabled, for a key of the report that is not reserved
and resolves to a document, the publishes of `processData` hold, next to each
other and in this order, "online" to the availability topic, the key's raw
value to the state topic and the serialized document to the config topic, each
with quality-of-service 1 and retain false; every other publish for the key is
the raw-value one, so no state or config publish of the sensor comes before
its availability publish. -/
theorem discovery_publish_order (config : tomlConfig) (components : tomlComponents)
    (query order1 order2 : Values) (key v : String) (vs : List String)
    (doc : hassMqttConfig)
    (hdisc : config.Hass.Discovery = true)
    (horders : RangeOrders query order1 order2)
    (hreg : RegistryHasPlatforms components)
    (hmem : (key, v :: vs) ∈ query)
    (hkey : key ≠ "PASSKEY" ∧ key ≠ "stationtype" ∧ key ≠ "dateutc")
    (hdoc : getHassMQTTConfig config components key (objectIdOf config query) = some doc)
    (hplat : doc.Platform ≠ "") :
    ∃ before after : List Event,
      (processData config components query order1 order2).published =
        before ++
          [⟨.availability, key, ⟨doc.AvailabilityTopic, 1, false, "online"⟩⟩,
           ⟨.state, key, ⟨doc.StateTopic, 1, false, v⟩⟩,
           ⟨.config, key, ⟨doc.ConfigTopic, 1, false,
             packComponentConfig (withSWVersion doc (stationTypeOf query))⟩⟩] ++ after ∧
      ∀ ev ∈ before ++ after, ev.key = key → ev.site = .raw := by
  have hi : arrayContains ignoredFields key = false := by
    cases hc : arrayContains ignoredFields key with
    | false => rfl
    | true =>
      rw [arrayContains_iff] at hc
      simp [ignoredFields, hkey.1, hkey.2.1, hkey.2.2] at hc
  have hcomplete := forRange_complete
    (discoveryBody config components (objectIdOf config query) (stationTypeOf query)) order2
    (fun e he => discoveryBody_ok _ _ _ _ e hreg (horders.ne_nil_right e he))
  have hpub := processData_published config components query order1 order2 horders
  rw [hdisc, if_pos rfl, hcomplete] at hpub
  obtain ⟨l1, l2, hsplit⟩ := List.append_of_mem (horders.2.2.2.symm.subset hmem)
  have hnd := horders.nodup_right
  rw [hsplit] at hnd
  obtain ⟨hl1, hl2⟩ := keys_ne_of_split l1 l2 (key, v :: vs) hnd
  refine ⟨order1.map (rawEvent config) ++
      l1.flatMap (fun e => (discoveryBody config components (objectIdOf config query)
        (stationTypeOf query) e).1),
    l2.flatMap (fun e => (discoveryBody config components (objectIdOf config query)
        (stationTypeOf query) e).1), ?_, ?_⟩
  · rw [hpub, hsplit, List.flatMap_append, List.flatMap_cons,
      discoveryBody_resolved _ _ _ _ _ _ _ _ hi hdoc hplat]
    simp only [discoveryEvents, withSWVersion, List.append_assoc]
  · intro ev hev hk
    simp only [List.mem_append, List.mem_map, List.mem_flatMap] at hev
    rcases hev with (⟨e, _, rfl⟩ | ⟨e, he, hb⟩) | ⟨e, he, hb⟩
    · rfl
    · exact absurd ((discoveryBody_mem _ _ _ _ _ _ hb).1.symm.trans hk) (hl1 e he)
    · exact absurd ((discoveryBody_mem _ _ _ _ _ _ hb).1.symm.trans hk) (hl2 e he)

theorem discovery_publish_order_witness :
    sampleConfig.Hass.Discovery = true ∧
      RangeOrders sampleQuery sampleQuery sampleQuery.reverse ∧
      RegistryHasPlatforms sampleComponents ∧
      getHassMQTTConfig sampleConfig sampleComponents "tempf"
        (objectIdOf sampleConfig sampleQuery) = some sampleTempfDoc ∧
      ∃ before after : List Event,
        (processData sampleConfig sampleComponents sampleQuery sampleQuery
            sampleQuery.reverse).published =
          before ++
            [⟨.availability, "tempf", ⟨sampleTempfDoc.AvailabilityTopic, 1, false, "online"⟩⟩,
             ⟨.state, "tempf", ⟨sampleTempfDoc.StateTopic, 1, false, "72.5"⟩⟩,
             ⟨.config, "tempf", ⟨sampleTempfDoc.ConfigTopic, 1, false,
               packComponentConfig
                 (withSWVersion sampleTempfDoc (stationTypeOf sampleQuery))⟩⟩] ++ after ∧
        ∀ ev ∈ before ++ after, ev.key = "tempf" → ev.site = .raw :=
  ⟨rfl, by decide, by decide, by decide,
    discovery_publish_order sampleConfig sampleComponents sampleQuery sampleQuery
      sampleQuery.reverse "tempf" "72.5" [] sampleTempfDoc rfl (by decide) (by decide)
      (by decide) (by decide) (by decide) (by decide)⟩

/-- C5: with discovery disabled the publishes of `processData` are, up to
order, one per entry of the query map: the key's first value, unmodified, to
`TopicPrefix/Topic/key` with quality-of-service 0 and no retain; every one of
them is a raw-value publish, so no availability, state or config topic is
published. -/
theorem discovery_disabled_raw_only (config : tomlConfig) (components : tomlComponents)
    (query order1 order2 : Values)
    (hdisc : config.Hass.Discovery = false)
    (horders : RangeOrders query order1 order2) :
    ((processData config components query order1 order2).published).Perm
        (query.map (fun e => (⟨.raw, e.1,
          ⟨config.Mqtt.TopicPrefix ++ "/" ++ config.Mqtt.Topic ++ "/" ++ e.1, 0, false,
            e.2.headD ""⟩⟩ : Event))) ∧
      (processData config components query order1 order2).published.length = query.length ∧
      ∀ ev ∈ (processData config components query order1 order2).published,
        ev.site = .raw := by
  have hpub : (processData config components query order1 order2).published =
      order1.map (rawEvent config) := by
    rw [processData_published config components query order1 order2 horders, hdisc]
    simp
  rw [hpub]
  refine ⟨horders.2.2.1.map _, ?_, ?_⟩
  · rw [List.length_map, horders.2.2.1.length_eq]
  · intro ev hev
    obtain ⟨e, _, rfl⟩ := List.mem_map.mp hev
    rfl

theorem discovery_disabled_raw_only_witness :
    sampleConfigNoDiscovery.Hass.Discovery = false ∧
      RangeOrders sampleQuery sampleQuery.reverse sampleQuery ∧
      ((processData sampleConfigNoDiscovery sampleComponents sampleQuery sampleQuery.reverse
        sampleQuery).published).Perm
        [⟨.raw, "PASSKEY", ⟨"weather/ws/PASSKEY", 0, false, "AA:BB:CC"⟩⟩,
         ⟨.raw, "tempf", ⟨"weather/ws/tempf", 0, false, "72.5"⟩⟩,
         ⟨.raw, "humidity", ⟨"weather/ws/humidity", 0, false, "45"⟩⟩,
         ⟨.raw, "dateutc", ⟨"weather/ws/dateutc", 0, false, "2024-01-01"⟩⟩] :=
  ⟨rfl, by decide,
    (discovery_disabled_raw_only sampleConfigNoDiscovery sampleComponents sampleQuery
      sampleQuery.reverse sampleQuery rfl (by decide)).1⟩

set_option maxRecDepth 100000 in
/-- C6 fails on the code: for a report with
`stationtype=AMBWeatherV4.2.9` the station type the handler keeps is "A", the
first byte only, and the discovery document published for `tempf` carries
`"sw_version":"A"`. -/
theorem stationtype_first_byte_only :
    stationTypeOf stationtypeQuery = "A" ∧
      ((processData sampleConfig sampleComponents stationtypeQuery stationtypeQuery
          stationtypeQuery).published.filter
            (fun ev => decide (ev.site = .config))).map (fun ev => ev.msg.payload) =
        ["\x7b\"availability_topic\":\"homeassistant/sensor/AA-BB-CC/tempf/availability\"," ++
         "\"device\":\x7b\"identifiers\":[\"AA-BB-CC\"],\"manufacturer\":\"Ambient Weather\"," ++
         "\"model\":\"ws-2902a\",\"name\":\"ws-2902a\",\"sw_version\":\"A\"\x7d," ++
         "\"name\":\"tempf\",\"qos\":1," ++
         "\"state_topic\":\"homeassistant/sensor/AA-BB-CC/tempf/state\"," ++
         "\"unique_id\":\"AA-BB-CC_tempf\",\"unit_of_measurement\":\"°F\"\x7d"] := by
  constructor
  · decide
  · decide

/-- C7: for a report whose query is well formed and a registry whose entries
all carry a platform kind, whatever the discovery mode, `processData` answers
with status 200 and the body
`{ "status": "accepted", "num_values": n }`, which is the JSON text
`{"status":"accepted","num_values":n}` up to whitespace between tokens, `n`
being the number of distinct query keys. -/
theorem processData_accepted (config : tomlConfig) (components : tomlComponents)
    (query order1 order2 : Values)
    (horders : RangeOrders query order1 order2)
    (hreg : RegistryHasPlatforms components) :
    ∃ r, (processData config components query order1 order2).response = some r ∧
      r.status = 200 ∧ r.contentType = "application/json" ∧
      r.body =
        "\x7b \"status\": \"accepted\", \"num_values\": " ++ toString query.length ++ " \x7d" ∧
      jsonCompact r.body =
        "\x7b\"status\":\"accepted\",\"num_values\":" ++ toString query.length ++ "\x7d" :=
  ⟨_, processData_response config components query order1 order2 horders hreg, rfl, rfl,
    rfl, jsonCompact_accepted query.length⟩

theorem processData_accepted_witness :
    RangeOrders sampleQuery sampleQuery sampleQuery.reverse ∧
      RegistryHasPlatforms sampleComponents ∧
      ∃ r, (processData sampleConfig sampleComponents sampleQuery sampleQuery
          sampleQuery.reverse).response = some r ∧
        r.status = 200 ∧ r.contentType = "application/json" ∧
        r.body = "\x7b \"status\": \"accepted\", \"num_values\": 4 \x7d" ∧
        jsonCompact r.body = "\x7b\"status\":\"accepted\",\"num_values\":4\x7d" :=
  ⟨by decide, by decide,
    processData_accepted sampleConfig sampleComponents sampleQuery sampleQuery
      sampleQuery.reverse (by decide) (by decide)⟩

/-- C8: for a key present in the registry with a platform kind, the device
block of the document has the configured model, name and manufacturer when
they are non-empty and the defaults "ws-2902a", "ws-2902a" and
"Ambient Weather" otherwise, and its identifiers are the one-element list
holding the station id. -/
theorem getHassMQTTConfig_device (config : tomlConfig) (components : tomlComponents)
    (key stationId : String) (entry : tomlHassComponent) (platform : String)
    (hentry : components.Sensors.lookup key = some entry)
    (hplatform : entry.Platform = some platform) :
    ∃ doc, getHassMQTTConfig config components key stationId = some doc ∧
      doc.Device.Model =
        (if config.Hass.DeviceModel ≠ "" then config.Hass.DeviceModel else "ws-2902a") ∧
      doc.Device.Name =
        (if config.Hass.DeviceName ≠ "" then config.Hass.DeviceName else "ws-2902a") ∧
      doc.Device.Manufacturer =
        (if config.Hass.Manufacturer ≠ "" then config.Hass.Manufacturer
          else "Ambient Weather") ∧
      doc.Device.Identifiers = [stationId] := by
  refine ⟨_, getHassMQTTConfig_present config components key stationId entry platform
    hentry hplatform, ?_, ?_, ?_, rfl⟩
  · by_cases h : config.Hass.DeviceModel = "" <;> simp [deviceOf, h]
  · by_cases h : config.Hass.DeviceName = "" <;> simp [deviceOf, h]
  · by_cases h : config.Hass.Manufacturer = "" <;> simp [deviceOf, h]

theorem getHassMQTTConfig_device_witness :
    sampleComponents.Sensors.lookup "humidity" = some (sampleSensor "%") ∧
      (sampleSensor "%").Platform = some "sensor" ∧
      ∃ doc, getHassMQTTConfig sampleConfigNamed sampleComponents "humidity" "AA-BB-CC" =
          some doc ∧
        doc.Device.Model = "ws-5000" ∧ doc.Device.Name = "ws-2902a" ∧
        doc.Device.Manufacturer = "Ambient Weather" ∧
        doc.Device.Identifiers = ["AA-BB-CC"] :=
  ⟨by decide, by decide,
    getHassMQTTConfig_device sampleConfigNamed sampleComponents "humidity" "AA-BB-CC"
      (sampleSensor "%") "sensor" (by decide) (by decide)⟩

/-- C9: station identity derivation is idempotent: replacing every `:` by `-`
in the identity derived from a PASSKEY yields the same identity again, and
that derivation is the one `processData` uses when no `ObjectId` override is
configured. -/
theorem stringsReplaceAll_idempotent (p : String) :
    stringsReplaceAll (stringsReplaceAll p ':' '-') ':' '-' = stringsReplaceAll p ':' '-' ∧
      ∀ (config : tomlConfig) (query : Values), config.Hass.ObjectId = "" →
        query.Get "PASSKEY" = p → objectIdOf config query = stringsReplaceAll p ':' '-' := by
  constructor
  · simp only [stringsReplaceAll, List.map_map]
    congr 1
    apply List.map_congr_left
    intro c _
    by_cases h : c = ':' <;> simp [h]
  · intro config query h1 h2
    simp [objectIdOf, h1, h2]

theorem stringsReplaceAll_idempotent_witness :
    stringsReplaceAll (stringsReplaceAll "AA:BB:CC" ':' '-') ':' '-' =
        stringsReplaceAll "AA:BB:CC" ':' '-' ∧
      objectIdOf sampleConfig sampleQuery = stringsReplaceAll "AA:BB:CC" ':' '-' ∧
      stringsReplaceAll "AA:BB:CC" ':' '-' = "AA-BB-CC" :=
  ⟨(stringsReplaceAll_idempotent "AA:BB:CC").1,
    (stringsReplaceAll_idempotent "AA:BB:CC").2 sampleConfig sampleQuery rfl (by decide),
    by decide⟩

/-- C10 (as stated) fails: the station id "station_1" with key "tempf" and the
station id "station" with key "1_tempf" are different pairs with the same
sensor id. -/
theorem getHassMQTTUniqueId_collision :
    ("station_1", "tempf") ≠ ("station", "1_tempf") ∧
      getHassMQTTUniqueId "tempf" "station_1" = getHassMQTTUniqueId "1_tempf" "station" := by
  decide

/-- C10 (amended): for station ids that are equal, or that both hold no
underscore, different (station id, key) pairs get different sensor ids from
`getHassMQTTUniqueId`. -/
theorem getHassMQTTUniqueId_injective (s1 s2 k1 k2 : String)
    (hs : s1 = s2 ∨ ('_' ∉ s1.data ∧ '_' ∉ s2.data))
    (hne : (s1, k1) ≠ (s2, k2)) :
    getHassMQTTUniqueId k1 s1 ≠ getHassMQTTUniqueId k2 s2 := by
  intro heq
  have hd : s1.data ++ '_' :: k1.data = s2.data ++ '_' :: k2.data := by
    have := congrArg String.data heq
    simpa [getHassMQTTUniqueId, String.data_append] using this
  apply hne
  rcases hs with rfl | ⟨h1, h2⟩
  · have hk := List.append_cancel_left hd
    simp only [List.cons.injEq, true_and] at hk
    rw [String.ext hk]
  · obtain ⟨ha, hb⟩ := append_sep_inj '_' _ _ _ _ h1 h2 hd
    rw [String.ext ha, String.ext hb]

theorem getHassMQTTUniqueId_injective_witness :
    ('_' ∉ "AA-BB-CC".data ∧ '_' ∉ "AA-BB-CD".data) ∧
      ("AA-BB-CC", "temp_f") ≠ ("AA-BB-CD", "temp_f") ∧
      getHassMQTTUniqueId "temp_f" "AA-BB-CC" ≠ getHassMQTTUniqueId "temp_f" "AA-BB-CD" :=
  ⟨by decide, by decide,
    getHassMQTTUniqueId_injective "AA-BB-CC" "AA-BB-CD" "temp_f" "temp_f"
      (Or.inr (by decide)) (by decide)⟩

end Ambient2Mqtt
